import Mathlib

/-!
# SentinelCCTV — shallow embedding and verification

This file embeds the two source files of the SentinelCCTV repository
(`src/backend/server.py` and `src/backend/dbProvider.py`) as executable
Lean definitions and proves / refutes the frozen claims about them.

Conventions of the embedding:

* Python `None` / missing JSON keys become `Option`; Python truthiness of
  an optional string (`if not url`) is the predicate `truthy`.
* The shared dictionary `state` (server.py lines 24-30) becomes the
  record `StreamState`; the Flask routes become pure functions from a
  payload and a `StreamState` to a new `StreamState` and a response.
* The worker loop `stream_worker` (server.py lines 40-114) becomes a
  step function `loopStep` over an explicit `LoopState`.  External
  OpenCV behaviour (whether a `cv2.VideoCapture` opens, what each
  `cap.read()` returns, what the Haar-cascade detector finds) is
  scripted by a `World` record; each created capture gets a fresh
  numeric id so that open/release calls can be counted.
* Resource and broadcast actions of one iteration are recorded as an
  `Event` list: `openEv` for each `cv2.VideoCapture(url)` construction,
  `releaseEv` for each `cap.release()`, `emitEv` for each
  `socketio.emit('frame', ...)`.
* An unhandled Python exception escaping the loop body (there is no
  try/except around it) is the `StepRes.crashed` outcome; note that the
  cleanup code after the `while` (lines 109-114) is *not* in a
  `finally`, so a crash skips it.
* Exact real arithmetic replaces float arithmetic in the resize step:
  `int(w * (max_width / w)) = max_width` and
  `int(h * (max_width / w))` is modelled as `h * max_width / w`
  (floor division); the claims under study do not depend on the
  one-pixel float rounding.
* `cv2.imencode` returns a pair `(retval, buffer)`; the code ignores
  `retval` and calls `.tobytes()` on the buffer, which raises when the
  buffer is not an array.  We model the buffer as `Option (List Nat)`
  (byte list) and the `.tobytes()`-on-`None` failure as a crash.
* `base64.b64encode(...).decode('ascii')` is implemented as genuine
  base64 over the byte list.
-/

namespace SentinelCCTV

/-! ## Shared stream state (server.py lines 24-30) and routes -/

/-- The shared `state` dict: `rtsp_url` (a string or `None`) and the
`running` flag.  The `placeholder_path` entry is never read by the code
under study and is omitted. -/
structure StreamState where
  rtsp_url : Option String
  running : Bool
deriving Repr, DecidableEq

/-- The value of `state` at process start (server.py lines 24-28). -/
def initState : StreamState :=
  { rtsp_url := some "rtsp:/192.168.1.20:554/mjpeg/1", running := true }

/-- Python truthiness of an optional string: `None` and the empty string
are falsy (`if not url`). -/
def truthy : Option String → Bool
  | none => false
  | some s => s != ""

/-- HTTP-level responses of the three routes. -/
inductive HttpResp where
  /-- `jsonify({'ok': True, 'rtsp_url': url})` from `set_stream`. -/
  | okSet (rtsp_url : String)
  /-- `jsonify({'ok': False, 'error': ...}), 400` from `set_stream`. -/
  | errSet (code : Nat) (error : String)
  /-- `jsonify({'ok': True})` from `stop_stream`. -/
  | okStop
  /-- `jsonify({'rtsp_url': url})` from `status`. -/
  | okStatus (rtsp_url : Option String)
deriving Repr, DecidableEq

/-- `POST /set_stream` (server.py lines 128-138): the `rtsp_url` field of
the JSON payload (`none` when absent), rejected with a 400 when falsy,
otherwise written to the shared state under the lock and echoed back. -/
def set_stream (rtspUrl : Option String) (s : StreamState) : StreamState × HttpResp :=
  match rtspUrl with
  | none => (s, HttpResp.errSet 400 "rtsp_url required")
  | some url =>
    if url != "" then
      ({ s with rtsp_url := some url }, HttpResp.okSet url)
    else
      (s, HttpResp.errSet 400 "rtsp_url required")

/-- `POST /stop_stream` (server.py lines 141-145): sets `rtsp_url` to
`None` under the lock.  It does not touch `running`. -/
def stop_stream (s : StreamState) : StreamState × HttpResp :=
  ({ s with rtsp_url := none }, HttpResp.okStop)

/-- `GET /status` (server.py lines 147-151): reads `rtsp_url` under the
lock and returns it. -/
def statusRoute (s : StreamState) : StreamState × HttpResp :=
  (s, HttpResp.okStatus s.rtsp_url)

/-- The control-plane operations that mutate or read the shared state. -/
inductive ControlOp where
  | setSource (rtspUrl : Option String)
  | stopSource
  | getStatus
deriving Repr, DecidableEq

/-- State effect of one control-plane request. -/
def applyOp (op : ControlOp) (s : StreamState) : StreamState :=
  match op with
  | ControlOp.setSource u => (set_stream u s).1
  | ControlOp.stopSource => (stop_stream s).1
  | ControlOp.getStatus => (statusRoute s).1

/-- The value a control operation writes to `rtsp_url`, when it writes. -/
def writesOf : ControlOp → Option (Option String)
  | ControlOp.setSource (some u) => if u != "" then some (some u) else none
  | ControlOp.setSource none => none
  | ControlOp.stopSource => some none
  | ControlOp.getStatus => none

/-! ## Lock-discipline model

Each shared-state access performed by the code is recorded with the
field touched, the direction, and whether `state_lock` is held at that
program point. -/

/-- The two fields of the shared state that the code accesses. -/
inductive SField where
  | rtspUrl
  | runningFlag
deriving Repr, DecidableEq

/-- Read or write. -/
inductive AccKind where
  | readAcc
  | writeAcc
deriving Repr, DecidableEq

/-- One access to the shared state. -/
structure Access where
  field : SField
  kind : AccKind
  locked : Bool
deriving Repr, DecidableEq

/-- Accesses of one loop iteration: the `while state['running']` test at
line 44 reads `running` with no lock held; when it passes, lines 45-46
read `rtsp_url` inside `with state_lock`. -/
def loopIterAccesses (running : Bool) : List Access :=
  { field := SField.runningFlag, kind := AccKind.readAcc, locked := false } ::
    (if running then
      [{ field := SField.rtspUrl, kind := AccKind.readAcc, locked := true }]
    else [])

/-- Accesses of one control-plane request: `set_stream` writes
`rtsp_url` under the lock (lines 135-136) only after validation;
`stop_stream` writes it under the lock (lines 143-144); `status` reads
it under the lock (lines 149-150). -/
def opAccesses : ControlOp → List Access
  | ControlOp.setSource u =>
      if truthy u then
        [{ field := SField.rtspUrl, kind := AccKind.writeAcc, locked := true }]
      else []
  | ControlOp.stopSource =>
      [{ field := SField.rtspUrl, kind := AccKind.writeAcc, locked := true }]
  | ControlOp.getStatus =>
      [{ field := SField.rtspUrl, kind := AccKind.readAcc, locked := true }]

/-! ## Frames and the per-frame pipeline (server.py lines 84-104) -/

/-- One face box as returned by `detectMultiScale`: `(x, y, w, h)`. -/
structure Box where
  x : Nat
  y : Nat
  w : Nat
  h : Nat
deriving Repr, DecidableEq

/-- Abstract image contents, tracking the transformations applied. -/
inductive Img where
  /-- A source pixel buffer, identified by a token. -/
  | src (tok : Nat)
  /-- `cv2.resize(frame, (w, h))`. -/
  | resized (i : Img) (w h : Nat)
  /-- The frame after `cv2.rectangle` was drawn for each box. -/
  | annotated (i : Img) (boxes : List Box)
deriving Repr, DecidableEq

/-- A frame as produced by `cap.read()`.  `detections` scripts what the
external Haar-cascade detector returns on (the greyscale of) this frame
after the resize step — the detector is a black-box collaborator.
`encodable` scripts whether `cv2.imencode('.jpg', ...)` succeeds on it. -/
structure Frame where
  width : Nat
  height : Nat
  img : Img
  detections : List Box
  encodable : Bool
deriving Repr, DecidableEq

/-- `max_width = 800` (server.py line 85). -/
def max_width : Nat := 800

/-- Lines 86-89: downscale preserving aspect ratio when the width
exceeds `max_width` (exact arithmetic in place of float). -/
def resizeForSpeed (f : Frame) : Frame :=
  if f.width > max_width then
    { f with
        width := max_width,
        height := f.height * max_width / f.width,
        img := Img.resized f.img max_width (f.height * max_width / f.width) }
  else f

/-- Lines 96-97: draw one rectangle per detected box onto the frame. -/
def annotate (f : Frame) : Frame :=
  { f with img := Img.annotated f.img f.detections }

/-- Byte serialisation standing for the JPEG buffer contents of an
image (a deterministic stand-in for `cv2.imencode`'s output bytes). -/
def Box.bytes (b : Box) : List Nat := [b.x, b.y, b.w, b.h]

/-- Byte serialisation of an `Img`. -/
def Img.bytes : Img → List Nat
  | Img.src tok => [0, tok]
  | Img.resized i w h => 1 :: w :: h :: Img.bytes i
  | Img.annotated i boxes => 2 :: boxes.length :: (boxes.flatMap Box.bytes ++ Img.bytes i)

/-- `cv2.imencode('.jpg', frame)` (line 100): a `(retval, buffer)` pair;
on failure the buffer is not a byte array (modelled `none`). -/
def imencode (f : Frame) : Bool × Option (List Nat) :=
  if f.encodable then (true, some (Img.bytes f.img)) else (false, none)

/-- The base64 alphabet. -/
def b64chars : List Char :=
  [ 'A','B','C','D','E','F','G','H','I','J','K','L','M','N','O','P','Q','R','S','T','U','V','W','X','Y','Z',
    'a','b','c','d','e','f','g','h','i','j','k','l','m','n','o','p','q','r','s','t','u','v','w','x','y','z',
    '0','1','2','3','4','5','6','7','8','9','+','/' ]

/-- One base64 output character. -/
def b64char (n : Nat) : Char := b64chars.getD n 'A'

/-- Base64 of a byte list (bytes taken mod 256), with `=` padding. -/
def b64bytes : List Nat → List Char
  | [] => []
  | [a] =>
      let a := a % 256
      [b64char (a / 4), b64char (a % 4 * 16), '=', '=']
  | [a, b] =>
      let a := a % 256
      let b := b % 256
      [b64char (a / 4), b64char (a % 4 * 16 + b / 16), b64char (b % 16 * 4), '=']
  | a :: b :: c :: rest =>
      let a := a % 256
      let b := b % 256
      let c := c % 256
      b64char (a / 4) :: b64char (a % 4 * 16 + b / 16) ::
        b64char (b % 16 * 4 + c / 64) :: b64char (c % 64) :: b64bytes rest

/-- `base64.b64encode(bytes).decode('ascii')` (line 101). -/
def b64encode (bs : List Nat) : String := String.mk (b64bytes bs)

/-- The payload of one `socketio.emit('frame', {...})` call (line 104). -/
structure BroadcastMsg where
  image : String
  faces : Nat
deriving Repr, DecidableEq

/-- The broadcast message the loop builds from one raw frame `f`:
resize, detect, annotate, JPEG-encode, base64 (lines 84-104). -/
def msgOf (f : Frame) : BroadcastMsg :=
  { image := b64encode (Img.bytes (annotate (resizeForSpeed f)).img),
    faces := (resizeForSpeed f).detections.length }

/-! ## The acquisition loop (server.py lines 40-114) -/

/-- One `cv2.VideoCapture` object: a fresh id (used to script its
behaviour and count open/release calls), the url it was opened on, and
how many `read()` calls it has served. -/
structure Cap where
  capId : Nat
  url : String
  reads : Nat
deriving Repr, DecidableEq

/-- The three observable outcomes of `cap.read()`.  Both `miss` (the
source briefly yields no frame) and `broken` (the underlying connection
is no longer usable) surface at the API as `ret == False`; the
constructor records the ground-truth cause, which the code cannot see. -/
inductive ReadOutcome where
  | ok (f : Frame)
  | miss
  | broken
deriving Repr, DecidableEq

/-- Scripted external behaviour: `openOk n` is what `isOpened()` returns
for the capture with id `n`; `readAt n k` is the outcome of that
capture's `k`-th `read()` call. -/
structure World where
  openOk : Nat → Bool
  readAt : Nat → Nat → ReadOutcome

/-- `cap.isOpened()`. -/
def Cap.isOpened (w : World) (c : Cap) : Bool := w.openOk c.capId

/-- `cv2.VideoCapture(url)` returning a fresh capture object. -/
def openCap (url : String) (n : Nat) : Cap := { capId := n, url := url, reads := 0 }

/-- Resource / broadcast actions recorded during loop execution. -/
inductive Event where
  | openEv (capId : Nat)
  | releaseEv (capId : Nat)
  | emitEv (msg : BroadcastMsg)
deriving Repr, DecidableEq

/-- The state of the worker between iterations: the shared state, the
local variables `last_url` and `cap` (lines 41-42), and the id the next
created capture will get. -/
structure LoopState where
  shared : StreamState
  last_url : Option String
  cap : Option Cap
  nextCapId : Nat
deriving Repr, DecidableEq

/-- The worker's local state at thread start (lines 41-42). -/
def initLoop : LoopState :=
  { shared := initState, last_url := none, cap := none, nextCapId := 0 }

/-- Result of one loop iteration: continue with a new state, exit the
`while` (cleanup of lines 109-114 already performed), or crash on an
unhandled exception (which skips the cleanup — it is not a `finally`). -/
inductive StepRes where
  | next (ls : LoopState) (evs : List Event)
  | exited (ls : LoopState) (evs : List Event)
  | crashed (ls : LoopState) (evs : List Event)
deriving Repr, DecidableEq

/-- Lines 78-107: read one frame from the open capture `c` and process
it.  A failed read (`not ret or frame is None`) sleeps and continues
with the same capture.  A successful read runs resize → detect →
annotate → imencode → emit; the success flag of `imencode` is ignored
(`_, jpeg = ...`) and `jpeg.tobytes()` raises when the buffer is absent,
crashing the worker. -/
def readStep (w : World) (ls : LoopState) (c : Cap) (evs : List Event) : StepRes :=
  match w.readAt c.capId c.reads with
  | ReadOutcome.miss =>
      StepRes.next { ls with cap := some { c with reads := c.reads + 1 } } evs
  | ReadOutcome.broken =>
      StepRes.next { ls with cap := some { c with reads := c.reads + 1 } } evs
  | ReadOutcome.ok f =>
      match imencode (annotate (resizeForSpeed f)) with
      | (_, some jpeg) =>
          StepRes.next { ls with cap := some { c with reads := c.reads + 1 } }
            (evs ++ [Event.emitEv
              { image := b64encode jpeg,
                faces := (resizeForSpeed f).detections.length }])
      | (_, none) =>
          StepRes.crashed { ls with cap := some { c with reads := c.reads + 1 } } evs

/-- Lines 67-76: if the capture is absent or not opened, release it (when
present), open a new one against `u`, sleep, and continue.  Otherwise
fall through to the read (line 78). -/
def afterConnect (w : World) (ls : LoopState) (u : String) (evs : List Event) : StepRes :=
  match ls.cap with
  | none =>
      StepRes.next
        { ls with cap := some (openCap u ls.nextCapId), nextCapId := ls.nextCapId + 1 }
        (evs ++ [Event.openEv ls.nextCapId])
  | some c =>
      if Cap.isOpened w c then
        readStep w ls c evs
      else
        StepRes.next
          { ls with cap := some (openCap u ls.nextCapId), nextCapId := ls.nextCapId + 1 }
          (evs ++ [Event.releaseEv c.capId, Event.openEv ls.nextCapId])

/-- One iteration of `stream_worker`'s `while` (lines 44-107), plus the
post-loop cleanup (lines 109-114) when the `running` test fails:

1. `while state['running']` — when false, release any capture and exit;
2. read `url` under the lock (lines 45-46);
3. `if not url:` sleep and continue (lines 48-51) — note: no release;
4. `if url != last_url:` release any capture, open a new one, set
   `last_url` (lines 53-65), then fall through;
5. the open check, read and pipeline via `afterConnect` / `readStep`. -/
def loopStep (w : World) (ls : LoopState) : StepRes :=
  if ls.shared.running then
    match ls.shared.rtsp_url with
    | none => StepRes.next ls []
    | some u =>
      if u = "" then StepRes.next ls []
      else
        if some u = ls.last_url then
          afterConnect w ls u []
        else
          match ls.cap with
          | some c =>
              afterConnect w
                { ls with
                    cap := some (openCap u ls.nextCapId),
                    last_url := some u,
                    nextCapId := ls.nextCapId + 1 }
                u [Event.releaseEv c.capId, Event.openEv ls.nextCapId]
          | none =>
              afterConnect w
                { ls with
                    cap := some (openCap u ls.nextCapId),
                    last_url := some u,
                    nextCapId := ls.nextCapId + 1 }
                u [Event.openEv ls.nextCapId]
  else
    match ls.cap with
    | some c => StepRes.exited { ls with cap := none } [Event.releaseEv c.capId]
    | none => StepRes.exited ls []

/-- Outcome of running the loop for a bounded number of iterations. -/
inductive RunRes where
  | outOfFuel (ls : LoopState)
  | exitedR (ls : LoopState)
  | crashedR (ls : LoopState)
deriving Repr, DecidableEq

/-- Run the loop `fuel` iterations, applying the scheduled control-plane
requests (`sched` head) to the shared state before each iteration — the
control plane only ever touches the shared state, and the loop reads it
once per iteration under the lock, so any interleaving is equivalent to
a batch applied at the iteration boundary.  Returns the outcome and the
concatenated event trace. -/
def runSched (w : World) : Nat → List (List ControlOp) → LoopState → RunRes × List Event
  | 0, _, ls => (RunRes.outOfFuel ls, [])
  | fuel + 1, sched, ls =>
    let ls0 := { ls with shared := (sched.headD []).foldl (fun s op => applyOp op s) ls.shared }
    match loopStep w ls0 with
    | StepRes.next ls1 evs =>
        let r := runSched w fuel sched.tail ls1
        (r.1, evs ++ r.2)
    | StepRes.exited ls1 evs => (RunRes.exitedR ls1, evs)
    | StepRes.crashed ls1 evs => (RunRes.crashedR ls1, evs)

/-- Capture ids of the `openEv` events of a trace, in order. -/
def openIds (tr : List Event) : List Nat :=
  tr.filterMap fun e =>
    match e with
    | Event.openEv i => some i
    | _ => none

/-- Capture ids of the `releaseEv` events of a trace, in order. -/
def relIds (tr : List Event) : List Nat :=
  tr.filterMap fun e =>
    match e with
    | Event.releaseEv i => some i
    | _ => none

/-- The broadcast messages of a trace, in order. -/
def emitsOf (tr : List Event) : List BroadcastMsg :=
  tr.filterMap fun e =>
    match e with
    | Event.emitEv m => some m
    | _ => none

/-- The capture id held in the final state of a run, if any. -/
def finalCapId : RunRes → Option Nat
  | RunRes.outOfFuel ls => ls.cap.map Cap.capId
  | RunRes.exitedR ls => ls.cap.map Cap.capId
  | RunRes.crashedR ls => ls.cap.map Cap.capId

/-! ## The database helper (dbProvider.py)

`psycopg2.sql` composition is embedded as a list of fragments: `sqlLit s`
is `sql.SQL(s)` (literal SQL text, possibly containing `%s` value
placeholders), `identFrag name` is `sql.Identifier(name)` (a safely
quoted identifier), `phFrag` is `sql.Placeholder()`.  A call to
`sql.SQL(fmt).format(args)` is rendered as the concatenation psycopg2
produces: the literal pieces of `fmt` interleaved with the arguments.
Values travel separately as the parameter list passed to
`cursor.execute`. -/

/-- A value bound as a query parameter. -/
inductive PValue where
  | str (s : String)
  | int (i : Int)
  | bool (b : Bool)
  | null
deriving Repr, DecidableEq

/-- One fragment of a composed `psycopg2.sql` query. -/
inductive Frag where
  | sqlLit (s : String)
  | identFrag (name : String)
  | phFrag
deriving Repr, DecidableEq

/-- A composed query together with its bound parameters. -/
structure Query where
  frags : List Frag
  params : List PValue
deriving Repr, DecidableEq

/-- `sql.SQL(sep).join(parts)`. -/
def sqlJoin (sep : Frag) (parts : List (List Frag)) : List Frag :=
  (parts.intersperse [sep]).flatten

/-- Python truthiness of an optional list (`if columns:`): `None` and the
empty list are falsy. -/
def truthyList {α : Type} : Option (List α) → Bool
  | none => false
  | some l => !l.isEmpty

/-- Python truthiness of a `where` mapping argument (`if where:` /
`if not where`): `None` and the empty mapping are falsy. -/
def truthyMap : Option (List (String × PValue)) → Bool
  | none => false
  | some l => !l.isEmpty

/-- `select_from_table` (dbProvider.py lines 78-136): the query it
composes and the parameters it binds.  `whereMap` is the `where` dict
(as an ordered association list), `whereSql` the raw `where_sql` string,
`whereParams` the accompanying `where_params`. -/
def select_from_table (table : String) (columns : Option (List String))
    (whereMap : Option (List (String × PValue))) (whereSql : Option String)
    (whereParams : Option (List PValue)) (orderBy : Option (List String))
    (lim : Option Int) : Query :=
  let cols_sql : List Frag :=
    if truthyList columns then
      sqlJoin (Frag.sqlLit ", ") ((columns.getD []).map fun c => [Frag.identFrag c])
    else [Frag.sqlLit "*"]
  let query0 : List Frag :=
    [Frag.sqlLit "SELECT "] ++ cols_sql ++ [Frag.sqlLit " FROM ", Frag.identFrag table]
  let withWhere : List Frag × List PValue :=
    if truthyMap whereMap then
      let wm := whereMap.getD []
      let whereParts := wm.map fun kv => [Frag.identFrag kv.1, Frag.sqlLit " = %s"]
      (query0 ++ [Frag.sqlLit " WHERE "] ++ sqlJoin (Frag.sqlLit " AND ") whereParts,
       wm.map Prod.snd)
    else if truthy whereSql then
      (query0 ++ [Frag.sqlLit " WHERE ", Frag.sqlLit (whereSql.getD "")],
       if truthyList whereParams then whereParams.getD [] else [])
    else (query0, [])
  let withOrder : List Frag :=
    if truthyList orderBy then
      withWhere.1 ++ [Frag.sqlLit " ORDER BY "] ++
        sqlJoin (Frag.sqlLit ", ") ((orderBy.getD []).map fun c => [Frag.identFrag c])
    else withWhere.1
  match lim with
  | some n => { frags := withOrder ++ [Frag.sqlLit " LIMIT %s"],
                params := withWhere.2 ++ [PValue.int n] }
  | none => { frags := withOrder, params := withWhere.2 }

/-- `insert_into_table` (dbProvider.py lines 139-174): raises
`ValueError` on an empty `data` mapping, otherwise composes
`INSERT INTO t (cols) VALUES (placeholders) [RETURNING ...]` with the
values bound as parameters. -/
def insert_into_table (table : String) (data : List (String × PValue))
    (returnCols : Option (List String)) : Except String Query :=
  if data.isEmpty then Except.error "data cannot be empty for insert."
  else
    let cols := data.map Prod.fst
    let values := data.map Prod.snd
    let cols_sql := sqlJoin (Frag.sqlLit ", ") (cols.map fun c => [Frag.identFrag c])
    let placeholders := sqlJoin (Frag.sqlLit ", ") (cols.map fun _ => [Frag.phFrag])
    let base : List Frag :=
      [Frag.sqlLit "INSERT INTO ", Frag.identFrag table, Frag.sqlLit " ("] ++
        cols_sql ++ [Frag.sqlLit ") VALUES ("] ++ placeholders ++ [Frag.sqlLit ")"]
    if truthyList returnCols then
      Except.ok
        { frags := base ++ [Frag.sqlLit " RETURNING "] ++
            sqlJoin (Frag.sqlLit ", ") ((returnCols.getD []).map fun c => [Frag.identFrag c]),
          params := values }
    else Except.ok { frags := base, params := values }

/-- `delete_from_table` (dbProvider.py lines 177-227): raises
`ValueError` when both `where` and `where_sql` are falsy (line 189-190);
otherwise composes `DELETE FROM t WHERE ...`; when `limit` is given the
query is rebuilt as a ctid subquery delete with the WHERE re-attached
inside the subquery and the limit appended as a parameter. -/
def delete_from_table (table : String) (whereMap : Option (List (String × PValue)))
    (whereSql : Option String) (whereParams : Option (List PValue))
    (lim : Option Int) : Except String Query :=
  if !truthyMap whereMap && !truthy whereSql then
    Except.error "DELETE requires a where clause (where dict or where_sql)."
  else
    let base : List Frag := [Frag.sqlLit "DELETE FROM ", Frag.identFrag table]
    let wm := whereMap.getD []
    let withWhere : List Frag × List PValue :=
      if truthyMap whereMap then
        let whereParts := wm.map fun kv => [Frag.identFrag kv.1, Frag.sqlLit " = %s"]
        (base ++ [Frag.sqlLit " WHERE "] ++ sqlJoin (Frag.sqlLit " AND ") whereParts,
         wm.map Prod.snd)
      else if truthy whereSql then
        (base ++ [Frag.sqlLit " WHERE ", Frag.sqlLit (whereSql.getD "")],
         if truthyList whereParams then whereParams.getD [] else [])
      else (base, [])
    match lim with
    | some n =>
        let sub : List Frag :=
          [Frag.sqlLit "DELETE FROM ", Frag.identFrag table,
           Frag.sqlLit " WHERE ctid IN (SELECT ctid FROM ", Frag.identFrag table]
        let sub2 : List Frag :=
          if truthyMap whereMap then
            let whereParts := wm.map fun kv => [Frag.identFrag kv.1, Frag.sqlLit " = %s"]
            sub ++ [Frag.sqlLit " WHERE "] ++ sqlJoin (Frag.sqlLit " AND ") whereParts
          else if truthy whereSql then
            sub ++ [Frag.sqlLit " WHERE ", Frag.sqlLit (whereSql.getD "")]
          else sub
        Except.ok { frags := sub2 ++ [Frag.sqlLit " LIMIT %s)"],
                    params := withWhere.2 ++ [PValue.int n] }
    | none => Except.ok { frags := withWhere.1, params := withWhere.2 }

/-- The SQL text literals written in the source of dbProvider.py (the
strings the code itself passes to `sql.SQL`, after `.format` splits a
format string at its braces). -/
def codeSqlLits : List String :=
  ["SELECT ", ", ", "*", " FROM ", " WHERE ", " AND ", " = %s", " ORDER BY ",
   " LIMIT %s", "INSERT INTO ", " (", ") VALUES (", ")", " RETURNING ",
   "DELETE FROM ", " WHERE ctid IN (SELECT ctid FROM ", " LIMIT %s)"]

/-- Whether one fragment is free of caller-supplied SQL text: a literal
fragment must be one of the source's own string literals; identifiers
and placeholders are safe by construction. -/
def fragOk (f : Frag) : Bool :=
  match f with
  | Frag.sqlLit s => codeSqlLits.contains s
  | Frag.identFrag _ => true
  | Frag.phFrag => true

/-- Checks that every literal-SQL fragment of a query is one of the
source's own string literals: no SQL text of the query came from a
caller value. -/
def litsFromCode (q : Query) : Bool :=
  q.frags.all fragOk

/-! ## Projections and the resource invariant -/

/-- The loop state carried by a step result. -/
def stateOfStep : StepRes → LoopState
  | StepRes.next ls _ => ls
  | StepRes.exited ls _ => ls
  | StepRes.crashed ls _ => ls

/-- The events of a step result. -/
def evsOfStep : StepRes → List Event
  | StepRes.next _ evs => evs
  | StepRes.exited _ evs => evs
  | StepRes.crashed _ evs => evs

/-- The loop state carried by a run result. -/
def stateOfRun : RunRes → LoopState
  | RunRes.outOfFuel ls => ls
  | RunRes.exitedR ls => ls
  | RunRes.crashedR ls => ls

/-- The connection-lifecycle invariant relating the currently held
capture and the open/release history: every opened id is below the
fresh-id counter and opened at most once, every released id was opened
and released at most once, the held capture (if any) is opened and not
yet released, and every opened id is either released or currently
held — no double release, no leaked handle. -/
structure CapInv (cap : Option Cap) (nextId : Nat) (tr : List Event) : Prop where
  openLt : ∀ i ∈ openIds tr, i < nextId
  openNodup : (openIds tr).Nodup
  relSub : ∀ i ∈ relIds tr, i ∈ openIds tr
  relNodup : (relIds tr).Nodup
  capOpen : ∀ c, cap = some c → c.capId ∈ openIds tr ∧ c.capId ∉ relIds tr ∧ c.capId < nextId
  noLeak : ∀ i ∈ openIds tr, i ∈ relIds tr ∨ ∃ c, cap = some c ∧ c.capId = i

/-! ## Concrete scenario material -/

/-- A world whose captures always open and never yield a frame. -/
def trivWorld : World :=
  { openOk := fun _ => true, readAt := fun _ _ => ReadOutcome.miss }

/-- A world whose captures open but whose connection is broken: every
`read()` fails because the underlying resource is unusable. -/
def brokenWorld : World :=
  { openOk := fun _ => true, readAt := fun _ _ => ReadOutcome.broken }

/-- A world whose captures always open and serve the frames of `fs` in
order (index `k` read returns `fs[k]`), then report read misses. -/
def framesWorld (fs : List Frame) : World :=
  { openOk := fun _ => true,
    readAt := fun _ k =>
      match (fs.drop k).head? with
      | some f => ReadOutcome.ok f
      | none => ReadOutcome.miss }

/-- A steady loop state: address `u` requested and already connected via
capture `cid`, which has served `j` reads; `n` is the next fresh id. -/
def steadyLS (u : String) (cid j n : Nat) : LoopState :=
  { shared := { rtsp_url := some u, running := true },
    last_url := some u,
    cap := some { capId := cid, url := u, reads := j },
    nextCapId := n }

/-- A plain frame with no detections. -/
def frame0 : Frame :=
  { width := 640, height := 480, img := Img.src 0, detections := [], encodable := true }

/-- A frame on which the detector reports one face box. -/
def frame1 : Frame :=
  { width := 640, height := 480, img := Img.src 1,
    detections := [{ x := 10, y := 10, w := 30, h := 30 }], encodable := true }

/-- Another frame with no detections. -/
def frame2 : Frame :=
  { width := 640, height := 480, img := Img.src 2, detections := [], encodable := true }

/-- A malformed frame: `cv2.imencode` fails on it. -/
def badFrame : Frame :=
  { width := 640, height := 480, img := Img.src 3, detections := [], encodable := false }

/-! ## Helper lemmas -/

theorem encodable_annotate_resize (f : Frame) :
    (annotate (resizeForSpeed f)).encodable = f.encodable := by
  unfold annotate resizeForSpeed
  split <;> rfl

theorem runSched_succ (w : World) (fuel : Nat) (sched : List (List ControlOp))
    (ls : LoopState) :
    runSched w (fuel + 1) sched ls =
      match loopStep w
          { ls with shared := (sched.headD []).foldl (fun s op => applyOp op s) ls.shared } with
      | StepRes.next ls1 evs =>
          ((runSched w fuel sched.tail ls1).1, evs ++ (runSched w fuel sched.tail ls1).2)
      | StepRes.exited ls1 evs => (RunRes.exitedR ls1, evs)
      | StepRes.crashed ls1 evs => (RunRes.crashedR ls1, evs) := rfl

theorem loopStep_steady (w : World) (u : String) (cid j n : Nat)
    (hu : u ≠ "") (hopen : w.openOk cid = true) :
    loopStep w (steadyLS u cid j n) =
      readStep w (steadyLS u cid j n) { capId := cid, url := u, reads := j } [] := by
  unfold loopStep
  simp [steadyLS, hu, afterConnect, Cap.isOpened, hopen]

theorem readStep_ok (w : World) (ls : LoopState) (c : Cap) (evs : List Event) (f : Frame)
    (h : w.readAt c.capId c.reads = ReadOutcome.ok f) :
    readStep w ls c evs =
      match imencode (annotate (resizeForSpeed f)) with
      | (_, some jpeg) =>
          StepRes.next { ls with cap := some { c with reads := c.reads + 1 } }
            (evs ++ [Event.emitEv
              { image := b64encode jpeg,
                faces := (resizeForSpeed f).detections.length }])
      | (_, none) =>
          StepRes.crashed { ls with cap := some { c with reads := c.reads + 1 } } evs := by
  unfold readStep
  rw [h]

/-! ## Connection-lifecycle invariant lemmas (towards claim C8) -/

theorem openIds_append (a b : List Event) : openIds (a ++ b) = openIds a ++ openIds b :=
  List.filterMap_append a b _

theorem relIds_append (a b : List Event) : relIds (a ++ b) = relIds a ++ relIds b :=
  List.filterMap_append a b _

theorem not_mem_relIds_of_lt (cap : Option Cap) (n : Nat) (tr : List Event)
    (h : CapInv cap n tr) (i : Nat) (hi : n ≤ i) : i ∉ relIds tr := by
  intro hmem
  exact absurd (h.openLt i (h.relSub i hmem)) (by omega)

theorem not_mem_openIds_of_lt (cap : Option Cap) (n : Nat) (tr : List Event)
    (h : CapInv cap n tr) (i : Nat) (hi : n ≤ i) : i ∉ openIds tr := by
  intro hmem
  exact absurd (h.openLt i hmem) (by omega)

theorem capInv_readBump (c : Cap) (n : Nat) (tr : List Event)
    (h : CapInv (some c) n tr) (evs : List Event)
    (ho : openIds evs = []) (hr : relIds evs = []) (r : Nat) :
    CapInv (some { c with reads := r }) n (tr ++ evs) := by
  have hoeq : openIds (tr ++ evs) = openIds tr := by
    rw [openIds_append, ho, List.append_nil]
  have hreq : relIds (tr ++ evs) = relIds tr := by
    rw [relIds_append, hr, List.append_nil]
  refine ⟨?_, ?_, ?_, ?_, ?_, ?_⟩
  · rw [hoeq]; exact h.openLt
  · rw [hoeq]; exact h.openNodup
  · rw [hoeq, hreq]; exact h.relSub
  · rw [hreq]; exact h.relNodup
  · intro c' hc'
    rw [hoeq, hreq]
    cases hc'
    exact h.capOpen c rfl
  · intro i hi
    rw [hoeq] at hi
    rw [hreq]
    rcases h.noLeak i hi with hrel | ⟨c', hc', hid⟩
    · left; exact hrel
    · right
      cases hc'
      exact ⟨{ c with reads := r }, rfl, hid⟩

theorem openIds_openSingle (i : Nat) : openIds [Event.openEv i] = [i] := rfl

theorem relIds_openSingle (i : Nat) : relIds [Event.openEv i] = [] := rfl

theorem openIds_relSingle (i : Nat) : openIds [Event.releaseEv i] = [] := rfl

theorem relIds_relSingle (i : Nat) : relIds [Event.releaseEv i] = [i] := rfl

theorem openIds_relOpenPair (i j : Nat) :
    openIds [Event.releaseEv i, Event.openEv j] = [j] := rfl

theorem relIds_relOpenPair (i j : Nat) :
    relIds [Event.releaseEv i, Event.openEv j] = [i] := rfl

theorem capId_openCap (u : String) (n : Nat) : (openCap u n).capId = n := rfl

theorem capInv_openFresh (n : Nat) (tr : List Event) (u : String)
    (h : CapInv none n tr) :
    CapInv (some (openCap u n)) (n + 1) (tr ++ [Event.openEv n]) := by
  have hoeq : openIds (tr ++ [Event.openEv n]) = openIds tr ++ [n] := by
    rw [openIds_append, openIds_openSingle]
  have hreq : relIds (tr ++ [Event.openEv n]) = relIds tr := by
    rw [relIds_append, relIds_openSingle, List.append_nil]
  refine ⟨?_, ?_, ?_, ?_, ?_, ?_⟩
  · rw [hoeq]
    intro i hi
    rcases List.mem_append.mp hi with hi | hi
    · have := h.openLt i hi; omega
    · rcases List.mem_singleton.mp hi with rfl; omega
  · rw [hoeq, List.nodup_append]
    exact ⟨h.openNodup, List.nodup_singleton n,
      fun i hi hin => absurd (h.openLt i hi)
        (by rcases List.mem_singleton.mp hin with rfl; omega)⟩
  · rw [hoeq, hreq]
    intro i hi
    exact List.mem_append_left _ (h.relSub i hi)
  · rw [hreq]; exact h.relNodup
  · intro c' hc'
    cases hc'
    rw [hoeq, hreq, capId_openCap]
    refine ⟨List.mem_append_right _ (List.mem_singleton_self n), ?_, by omega⟩
    exact not_mem_relIds_of_lt none n tr h n (by omega)
  · intro i hi
    rw [hoeq] at hi
    rw [hreq]
    rcases List.mem_append.mp hi with hi | hi
    · rcases h.noLeak i hi with hrel | ⟨c', hc', _⟩
      · left; exact hrel
      · exact Option.noConfusion hc'
    · rcases List.mem_singleton.mp hi with rfl
      right
      exact ⟨_, rfl, rfl⟩

theorem capInv_relOpen (c : Cap) (n : Nat) (tr : List Event) (u : String)
    (h : CapInv (some c) n tr) :
    CapInv (some (openCap u n)) (n + 1)
      (tr ++ [Event.releaseEv c.capId, Event.openEv n]) := by
  have hcap := h.capOpen c rfl
  have hoeq : openIds (tr ++ [Event.releaseEv c.capId, Event.openEv n]) =
      openIds tr ++ [n] := by
    rw [openIds_append, openIds_relOpenPair]
  have hreq : relIds (tr ++ [Event.releaseEv c.capId, Event.openEv n]) =
      relIds tr ++ [c.capId] := by
    rw [relIds_append, relIds_relOpenPair]
  refine ⟨?_, ?_, ?_, ?_, ?_, ?_⟩
  · rw [hoeq]
    intro i hi
    rcases List.mem_append.mp hi with hi | hi
    · have := h.openLt i hi; omega
    · rcases List.mem_singleton.mp hi with rfl; omega
  · rw [hoeq, List.nodup_append]
    exact ⟨h.openNodup, List.nodup_singleton n,
      fun i hi hin => absurd (h.openLt i hi)
        (by rcases List.mem_singleton.mp hin with rfl; omega)⟩
  · rw [hoeq, hreq]
    intro i hi
    rcases List.mem_append.mp hi with hi | hi
    · exact List.mem_append_left _ (h.relSub i hi)
    · rcases List.mem_singleton.mp hi with rfl
      exact List.mem_append_left _ hcap.1
  · rw [hreq, List.nodup_append]
    exact ⟨h.relNodup, List.nodup_singleton _,
      fun i hi hin => by
        rcases List.mem_singleton.mp hin with rfl
        exact hcap.2.1 hi⟩
  · intro c' hc'
    cases hc'
    rw [hoeq, hreq, capId_openCap]
    refine ⟨List.mem_append_right _ (List.mem_singleton_self n), ?_, by omega⟩
    intro hmem
    rcases List.mem_append.mp hmem with hmem | hmem
    · exact not_mem_relIds_of_lt (some c) n tr h n (by omega) hmem
    · rcases List.mem_singleton.mp hmem with heq
      have := hcap.2.2
      omega
  · intro i hi
    rw [hoeq] at hi
    rw [hreq]
    rcases List.mem_append.mp hi with hi | hi
    · rcases h.noLeak i hi with hrel | ⟨c', hc', hid⟩
      · left; exact List.mem_append_left _ hrel
      · left
        cases hc'
        rcases hid with rfl
        exact List.mem_append_right _ (List.mem_singleton_self _)
    · rcases List.mem_singleton.mp hi with rfl
      right
      exact ⟨_, rfl, rfl⟩

theorem capInv_release (c : Cap) (n : Nat) (tr : List Event)
    (h : CapInv (some c) n tr) :
    CapInv none n (tr ++ [Event.releaseEv c.capId]) := by
  have hcap := h.capOpen c rfl
  have hoeq : openIds (tr ++ [Event.releaseEv c.capId]) = openIds tr := by
    rw [openIds_append, openIds_relSingle, List.append_nil]
  have hreq : relIds (tr ++ [Event.releaseEv c.capId]) = relIds tr ++ [c.capId] := by
    rw [relIds_append, relIds_relSingle]
  refine ⟨?_, ?_, ?_, ?_, ?_, ?_⟩
  · rw [hoeq]; exact h.openLt
  · rw [hoeq]; exact h.openNodup
  · rw [hoeq, hreq]
    intro i hi
    rcases List.mem_append.mp hi with hi | hi
    · exact h.relSub i hi
    · rcases List.mem_singleton.mp hi with rfl
      exact hcap.1
  · rw [hreq, List.nodup_append]
    exact ⟨h.relNodup, List.nodup_singleton _,
      fun i hi hin => by
        rcases List.mem_singleton.mp hin with rfl
        exact hcap.2.1 hi⟩
  · intro c' hc'
    exact Option.noConfusion hc'
  · intro i hi
    rw [hoeq] at hi
    rw [hreq]
    rcases h.noLeak i hi with hrel | ⟨c', hc', hid⟩
    · left; exact List.mem_append_left _ hrel
    · left
      cases hc'
      rcases hid with rfl
      exact List.mem_append_right _ (List.mem_singleton_self _)

theorem afterConnect_none (w : World) (ls : LoopState) (u : String) (evs : List Event)
    (h : ls.cap = none) :
    afterConnect w ls u evs = StepRes.next
      { ls with
          cap := some (openCap u ls.nextCapId),
          nextCapId := ls.nextCapId + 1 }
      (evs ++ [Event.openEv ls.nextCapId]) := by
  unfold afterConnect
  rw [h]

theorem afterConnect_some (w : World) (ls : LoopState) (u : String) (evs : List Event)
    (c : Cap) (h : ls.cap = some c) :
    afterConnect w ls u evs =
      (if Cap.isOpened w c = true then readStep w ls c evs
       else StepRes.next
        { ls with
            cap := some (openCap u ls.nextCapId),
            nextCapId := ls.nextCapId + 1 }
        (evs ++ [Event.releaseEv c.capId, Event.openEv ls.nextCapId])) := by
  unfold afterConnect
  rw [h]

theorem loopStep_notRunning (w : World) (ls : LoopState) (h : ls.shared.running = false) :
    loopStep w ls =
      (match ls.cap with
       | some c => StepRes.exited { ls with cap := none } [Event.releaseEv c.capId]
       | none => StepRes.exited ls []) := by
  unfold loopStep
  rw [h]
  all_goals rfl

theorem loopStep_urlNone (w : World) (ls : LoopState) (hr : ls.shared.running = true)
    (h : ls.shared.rtsp_url = none) : loopStep w ls = StepRes.next ls [] := by
  unfold loopStep
  rw [hr, h]
  all_goals rfl

theorem loopStep_urlSome (w : World) (ls : LoopState) (u : String)
    (hr : ls.shared.running = true) (h : ls.shared.rtsp_url = some u) :
    loopStep w ls =
      (if u = "" then StepRes.next ls []
       else if some u = ls.last_url then afterConnect w ls u []
       else
        match ls.cap with
        | some c =>
            afterConnect w
              { ls with
                  cap := some (openCap u ls.nextCapId),
                  last_url := some u,
                  nextCapId := ls.nextCapId + 1 } u
              [Event.releaseEv c.capId, Event.openEv ls.nextCapId]
        | none =>
            afterConnect w
              { ls with
                  cap := some (openCap u ls.nextCapId),
                  last_url := some u,
                  nextCapId := ls.nextCapId + 1 } u
              [Event.openEv ls.nextCapId]) := by
  unfold loopStep
  rw [hr, h]
  all_goals rfl

theorem readStep_capInv (w : World) (ls : LoopState) (c : Cap) (evs tr : List Event)
    (h : CapInv (some c) ls.nextCapId (tr ++ evs)) :
    CapInv (stateOfStep (readStep w ls c evs)).cap
      (stateOfStep (readStep w ls c evs)).nextCapId
      (tr ++ evsOfStep (readStep w ls c evs)) := by
  rcases hread : w.readAt c.capId c.reads with f | _ | _
  · rw [readStep_ok w ls c evs f hread]
    rcases himc : imencode (annotate (resizeForSpeed f)) with ⟨fst, snd⟩
    rcases snd with _ | jpeg
    · show CapInv (some { c with reads := c.reads + 1 }) ls.nextCapId (tr ++ evs)
      have := capInv_readBump c ls.nextCapId (tr ++ evs) h [] rfl rfl (c.reads + 1)
      rwa [List.append_nil] at this
    · show CapInv (some { c with reads := c.reads + 1 }) ls.nextCapId
        (tr ++ (evs ++ [Event.emitEv
          { image := b64encode jpeg, faces := (resizeForSpeed f).detections.length }]))
      rw [← List.append_assoc]
      exact capInv_readBump c ls.nextCapId (tr ++ evs) h
        [Event.emitEv
          { image := b64encode jpeg,
            faces := (resizeForSpeed f).detections.length }] rfl rfl (c.reads + 1)
  · unfold readStep
    rw [hread]
    show CapInv (some { c with reads := c.reads + 1 }) ls.nextCapId (tr ++ evs)
    have := capInv_readBump c ls.nextCapId (tr ++ evs) h [] rfl rfl (c.reads + 1)
    rwa [List.append_nil] at this
  · unfold readStep
    rw [hread]
    show CapInv (some { c with reads := c.reads + 1 }) ls.nextCapId (tr ++ evs)
    have := capInv_readBump c ls.nextCapId (tr ++ evs) h [] rfl rfl (c.reads + 1)
    rwa [List.append_nil] at this

theorem afterConnect_capInv (w : World) (ls : LoopState) (u : String) (evs tr : List Event)
    (h : CapInv ls.cap ls.nextCapId (tr ++ evs)) :
    CapInv (stateOfStep (afterConnect w ls u evs)).cap
      (stateOfStep (afterConnect w ls u evs)).nextCapId
      (tr ++ evsOfStep (afterConnect w ls u evs)) := by
  rcases hc : ls.cap with _ | c
  · rw [afterConnect_none w ls u evs hc]
    rw [hc] at h
    show CapInv (some (openCap u ls.nextCapId)) (ls.nextCapId + 1)
      (tr ++ (evs ++ [Event.openEv ls.nextCapId]))
    rw [← List.append_assoc]
    exact capInv_openFresh ls.nextCapId (tr ++ evs) u h
  · rw [afterConnect_some w ls u evs c hc]
    rw [hc] at h
    cases ho : Cap.isOpened w c
    · rw [if_neg Bool.false_ne_true]
      show CapInv (some (openCap u ls.nextCapId)) (ls.nextCapId + 1)
        (tr ++ (evs ++ [Event.releaseEv c.capId, Event.openEv ls.nextCapId]))
      rw [← List.append_assoc]
      exact capInv_relOpen c ls.nextCapId (tr ++ evs) u h
    · rw [if_pos rfl]
      exact readStep_capInv w ls c evs tr h

theorem loopStep_capInv (w : World) (ls : LoopState) (tr : List Event)
    (h : CapInv ls.cap ls.nextCapId tr) :
    CapInv (stateOfStep (loopStep w ls)).cap (stateOfStep (loopStep w ls)).nextCapId
      (tr ++ evsOfStep (loopStep w ls)) := by
  have happ : CapInv ls.cap ls.nextCapId (tr ++ []) := by rwa [List.append_nil]
  cases hrun : ls.shared.running
  · rw [loopStep_notRunning w ls hrun]
    rcases hc : ls.cap with _ | c
    · show CapInv ls.cap ls.nextCapId (tr ++ [])
      exact happ
    · rw [hc] at h
      show CapInv none ls.nextCapId (tr ++ [Event.releaseEv c.capId])
      exact capInv_release c ls.nextCapId tr h
  · rcases hurl : ls.shared.rtsp_url with _ | u
    · rw [loopStep_urlNone w ls hrun hurl]
      show CapInv ls.cap ls.nextCapId (tr ++ [])
      exact happ
    · rw [loopStep_urlSome w ls u hrun hurl]
      by_cases hu : u = ""
      · rw [if_pos hu]
        show CapInv ls.cap ls.nextCapId (tr ++ [])
        exact happ
      · rw [if_neg hu]
        by_cases hl : some u = ls.last_url
        · rw [if_pos hl]
          exact afterConnect_capInv w ls u [] tr happ
        · rw [if_neg hl]
          rcases hc : ls.cap with _ | c
          · rw [hc] at h
            exact afterConnect_capInv w
              { ls with
                  cap := some (openCap u ls.nextCapId),
                  last_url := some u,
                  nextCapId := ls.nextCapId + 1 } u [Event.openEv ls.nextCapId] tr
              (capInv_openFresh ls.nextCapId tr u h)
          · rw [hc] at h
            exact afterConnect_capInv w
              { ls with
                  cap := some (openCap u ls.nextCapId),
                  last_url := some u,
                  nextCapId := ls.nextCapId + 1 } u
              [Event.releaseEv c.capId, Event.openEv ls.nextCapId] tr
              (capInv_relOpen c ls.nextCapId tr u h)

theorem finalCapId_eq (r : RunRes) : finalCapId r = (stateOfRun r).cap.map Cap.capId := by
  cases r <;> rfl

theorem runSched_capInv (w : World) :
    ∀ (fuel : Nat) (sched : List (List ControlOp)) (ls : LoopState) (tr : List Event),
      CapInv ls.cap ls.nextCapId tr →
      CapInv (stateOfRun (runSched w fuel sched ls).1).cap
        (stateOfRun (runSched w fuel sched ls).1).nextCapId
        (tr ++ (runSched w fuel sched ls).2) := by
  intro fuel
  induction fuel with
  | zero =>
      intro sched ls tr h
      show CapInv ls.cap ls.nextCapId (tr ++ [])
      rwa [List.append_nil]
  | succ k ih =>
      intro sched ls tr h
      rw [runSched_succ]
      have hstep := loopStep_capInv w
        { ls with
            shared := (sched.headD []).foldl (fun s op => applyOp op s) ls.shared } tr h
      rcases hls : loopStep w
          { ls with
              shared := (sched.headD []).foldl (fun s op => applyOp op s) ls.shared }
        with ⟨ls1, evs⟩ | ⟨ls1, evs⟩ | ⟨ls1, evs⟩
      · rw [hls] at hstep
        have hstep2 : CapInv ls1.cap ls1.nextCapId (tr ++ evs) := hstep
        have hrun := ih sched.tail ls1 (tr ++ evs) hstep2
        show CapInv (stateOfRun (runSched w k sched.tail ls1).1).cap
          (stateOfRun (runSched w k sched.tail ls1).1).nextCapId
          (tr ++ (evs ++ (runSched w k sched.tail ls1).2))
        rwa [← List.append_assoc]
      · rw [hls] at hstep
        exact hstep
      · rw [hls] at hstep
        exact hstep

/-! ## Claim C8 -/

/-- C8: the connection-lifecycle discipline of the loop.  First, on
every address change observed while a connection is open, the iteration
releases the prior capture exactly once, and does so before opening the
capture for the new address (the event list starts with the release
followed by the fresh open, and the old capture's id is released exactly
once in that iteration).  Second, over any bounded execution from the
worker's start state with any schedule of control-plane requests: no
capture id is ever released twice, every released id was opened, every
opened id is distinct, and every opened id has either been released or
is the currently held capture — no double release and no leaked
handle. -/
theorem C8_connection_lifecycle :
    (∀ (w : World) (ls : LoopState) (u : String) (c : Cap),
      ls.shared.running = true → ls.shared.rtsp_url = some u → u ≠ "" →
      some u ≠ ls.last_url → ls.cap = some c → c.capId < ls.nextCapId →
      ∃ rest, evsOfStep (loopStep w ls) =
          Event.releaseEv c.capId :: Event.openEv ls.nextCapId :: rest ∧
        (relIds (evsOfStep (loopStep w ls))).count c.capId = 1) ∧
    (∀ (w : World) (sched : List (List ControlOp)) (fuel : Nat),
      (relIds (runSched w fuel sched initLoop).2).Nodup ∧
      (openIds (runSched w fuel sched initLoop).2).Nodup ∧
      (∀ i ∈ relIds (runSched w fuel sched initLoop).2,
        i ∈ openIds (runSched w fuel sched initLoop).2) ∧
      (∀ i ∈ openIds (runSched w fuel sched initLoop).2,
        i ∈ relIds (runSched w fuel sched initLoop).2 ∨
          finalCapId (runSched w fuel sched initLoop).1 = some i)) := by
  constructor
  · intro w ls u c hrun hurl hu hl hc hlt
    have hne : c.capId ≠ ls.nextCapId := by omega
    have hred : loopStep w ls = afterConnect w
        { ls with
            cap := some (openCap u ls.nextCapId),
            last_url := some u,
            nextCapId := ls.nextCapId + 1 } u
        [Event.releaseEv c.capId, Event.openEv ls.nextCapId] := by
      rw [loopStep_urlSome w ls u hrun hurl, if_neg hu, if_neg hl, hc]
    rw [hred]
    rw [afterConnect_some w
      { ls with
          cap := some (openCap u ls.nextCapId),
          last_url := some u,
          nextCapId := ls.nextCapId + 1 } u
      [Event.releaseEv c.capId, Event.openEv ls.nextCapId] (openCap u ls.nextCapId) rfl]
    cases ho : Cap.isOpened w (openCap u ls.nextCapId)
    · rw [if_neg Bool.false_ne_true]
      refine ⟨_, rfl, ?_⟩
      show (relIds ([Event.releaseEv c.capId, Event.openEv ls.nextCapId] ++
        [Event.releaseEv (openCap u ls.nextCapId).capId,
          Event.openEv (ls.nextCapId + 1)])).count c.capId = 1
      rw [relIds_append, relIds_relOpenPair, relIds_relOpenPair, capId_openCap]
      simp [List.count_cons, hne]
    · rw [if_pos rfl]
      rcases hread : w.readAt (openCap u ls.nextCapId).capId (openCap u ls.nextCapId).reads
        with f | _ | _
      · rw [readStep_ok w _ (openCap u ls.nextCapId) _ f hread]
        rcases himc : imencode (annotate (resizeForSpeed f)) with ⟨fst, snd⟩
        rcases snd with _ | jpeg
        · refine ⟨_, rfl, ?_⟩
          show (relIds [Event.releaseEv c.capId, Event.openEv ls.nextCapId]).count c.capId = 1
          rw [relIds_relOpenPair]
          simp
        · refine ⟨_, rfl, ?_⟩
          show (relIds ([Event.releaseEv c.capId, Event.openEv ls.nextCapId] ++
            [Event.emitEv
              { image := b64encode jpeg,
                faces := (resizeForSpeed f).detections.length }])).count c.capId = 1
          rw [relIds_append, relIds_relOpenPair]
          simp [relIds]
      · unfold readStep
        rw [hread]
        refine ⟨_, rfl, ?_⟩
        show (relIds [Event.releaseEv c.capId, Event.openEv ls.nextCapId]).count c.capId = 1
        rw [relIds_relOpenPair]
        simp
      · unfold readStep
        rw [hread]
        refine ⟨_, rfl, ?_⟩
        show (relIds [Event.releaseEv c.capId, Event.openEv ls.nextCapId]).count c.capId = 1
        rw [relIds_relOpenPair]
        simp
  · intro w sched fuel
    have hinit : CapInv initLoop.cap initLoop.nextCapId [] := by
      refine ⟨?_, ?_, ?_, ?_, ?_, ?_⟩ <;> simp [openIds, relIds, initLoop]
    have h := runSched_capInv w fuel sched initLoop [] hinit
    rw [List.nil_append] at h
    refine ⟨h.relNodup, h.openNodup, h.relSub, ?_⟩
    intro i hi
    rcases h.noLeak i hi with hrel | ⟨c, hcc, hid⟩
    · left; exact hrel
    · right
      rw [finalCapId_eq, hcc]
      show some c.capId = some i
      rw [hid]

/-- C8 witness: the theorem at concrete inputs — an address change from
`"camA"` (open as capture 0) to `"camB"` releases capture 0 first and
opens capture 1, with exactly one release of id 0 in that iteration; and
a concrete five-iteration run from the start state satisfies the
no-double-release / no-leak trace conditions. -/
theorem C8_witness :
    (∃ rest, evsOfStep (loopStep trivWorld
        { shared := { rtsp_url := some "camB", running := true },
          last_url := some "camA",
          cap := some { capId := 0, url := "camA", reads := 3 },
          nextCapId := 1 }) =
        Event.releaseEv 0 :: Event.openEv 1 :: rest ∧
      (relIds (evsOfStep (loopStep trivWorld
        { shared := { rtsp_url := some "camB", running := true },
          last_url := some "camA",
          cap := some { capId := 0, url := "camA", reads := 3 },
          nextCapId := 1 }))).count 0 = 1) ∧
    ((relIds (runSched trivWorld 5 [] initLoop).2).Nodup ∧
      (openIds (runSched trivWorld 5 [] initLoop).2).Nodup ∧
      (∀ i ∈ relIds (runSched trivWorld 5 [] initLoop).2,
        i ∈ openIds (runSched trivWorld 5 [] initLoop).2) ∧
      (∀ i ∈ openIds (runSched trivWorld 5 [] initLoop).2,
        i ∈ relIds (runSched trivWorld 5 [] initLoop).2 ∨
          finalCapId (runSched trivWorld 5 [] initLoop).1 = some i)) :=
  ⟨C8_connection_lifecycle.1 trivWorld
      { shared := { rtsp_url := some "camB", running := true },
        last_url := some "camA",
        cap := some { capId := 0, url := "camA", reads := 3 },
        nextCapId := 1 } "camB" { capId := 0, url := "camA", reads := 3 }
      rfl rfl (by decide) (by decide) rfl (by decide),
   C8_connection_lifecycle.2 trivWorld [] 5⟩

/-! ## Claims C1-C4 -/

/-- C1 counterexample: with address `"camA"` open (capture id 0) and
`stop_stream` just applied (so the address is now empty), the next loop
iteration emits no events at all — in particular no `releaseEv` — and
keeps the capture; since the state is returned unchanged, every further
iteration behaves identically, so the connection's release is never
invoked while the address stays empty, contradicting the claim that the
release happens within one polling interval. -/
theorem C1_counterexample :
    loopStep trivWorld
      { shared := (stop_stream { rtsp_url := some "camA", running := true }).1,
        last_url := some "camA",
        cap := some { capId := 0, url := "camA", reads := 0 },
        nextCapId := 1 } =
      StepRes.next
        { shared := { rtsp_url := none, running := true },
          last_url := some "camA",
          cap := some { capId := 0, url := "camA", reads := 0 },
          nextCapId := 1 } [] := by
  rfl

/-- C1 amended: after `stop_stream` empties the address, the loop idles:
each iteration returns the state unchanged with no events, so zero
broadcasts occur while the address stays empty — but the open connection
is *not* released; it is retained until a later address change or loop
exit. -/
theorem C1_amended_idle_no_release (w : World) (ls : LoopState)
    (hrun : ls.shared.running = true) (hurl : truthy ls.shared.rtsp_url = false) :
    loopStep w ls = StepRes.next ls [] ∧
    ∀ n, runSched w n [] ls = (RunRes.outOfFuel ls, []) := by
  have hstep : loopStep w ls = StepRes.next ls [] := by
    unfold loopStep
    rw [hrun]
    cases h : ls.shared.rtsp_url with
    | none => rfl
    | some u =>
        rw [h] at hurl
        simp only [truthy] at hurl
        have hu : u = "" := by simpa using hurl
        simp [hu]
  refine ⟨hstep, ?_⟩
  intro n
  induction n with
  | zero => rfl
  | succ k ih =>
      rw [runSched_succ]
      show (match loopStep w ls with
        | StepRes.next ls1 evs =>
            ((runSched w k [] ls1).1, evs ++ (runSched w k [] ls1).2)
        | StepRes.exited ls1 evs => (RunRes.exitedR ls1, evs)
        | StepRes.crashed ls1 evs => (RunRes.crashedR ls1, evs)) =
          (RunRes.outOfFuel ls, [])
      rw [hstep]
      show ((runSched w k [] ls).1, [] ++ (runSched w k [] ls).2) = (RunRes.outOfFuel ls, [])
      rw [ih]
      rfl

/-- C1 witness: the amended theorem applied to the concrete
post-`stop_stream` state of the counterexample scenario. -/
theorem C1_witness :
    loopStep trivWorld
      { shared := { rtsp_url := none, running := true },
        last_url := some "camA",
        cap := some { capId := 0, url := "camA", reads := 0 },
        nextCapId := 1 } =
      StepRes.next
        { shared := { rtsp_url := none, running := true },
          last_url := some "camA",
          cap := some { capId := 0, url := "camA", reads := 0 },
          nextCapId := 1 } [] :=
  (C1_amended_idle_no_release trivWorld
    { shared := { rtsp_url := none, running := true },
      last_url := some "camA",
      cap := some { capId := 0, url := "camA", reads := 0 },
      nextCapId := 1 } rfl rfl).1

/-- C2 counterexample: the capture with id 0 is open on `"camA"` and its
`read()` fails because the connection is broken; the next iteration
keeps the very same capture (only its read counter advances), emits no
`releaseEv` and no `openEv` — the broken connection is handled by merely
pausing and retrying the read on the same handle, contradicting the
claimed forced release-and-reopen. -/
theorem C2_counterexample :
    loopStep brokenWorld (steadyLS "camA" 0 0 1) =
      StepRes.next (steadyLS "camA" 0 1 1) [] := by
  rfl

/-- C2 amended: a failed `cap.read()` — whether a transient miss or a
broken connection, which the code cannot distinguish (`not ret`) — is
answered by a pause and a retry on the same capture handle: no release,
no reopen, no state transition.  A release-and-reopen happens only when
`cap.isOpened()` is false at the top of a later iteration. -/
theorem C2_amended_retry_same_handle (w : World) (u : String) (cid j n : Nat)
    (hu : u ≠ "") (hopen : w.openOk cid = true)
    (hread : w.readAt cid j = ReadOutcome.broken ∨ w.readAt cid j = ReadOutcome.miss) :
    loopStep w (steadyLS u cid j n) = StepRes.next (steadyLS u cid (j + 1) n) [] := by
  have hstep : loopStep w (steadyLS u cid j n) =
      readStep w (steadyLS u cid j n) { capId := cid, url := u, reads := j } [] := by
    unfold loopStep
    simp [steadyLS, hu, afterConnect, Cap.isOpened, hopen]
  rw [hstep]
  unfold readStep
  rcases hread with h | h <;> rw [h]
  all_goals rfl

/-- C3 counterexample: a frame is read successfully but `cv2.imencode`
fails on it; the ignored success flag means `jpeg.tobytes()` is called
on a non-buffer and raises, and with no try/except around the loop body
the worker crashes even though `running` is still true — contradicting
"fatal to that iteration only" and "the only way the loop terminates is
running=false". -/
theorem C3_counterexample :
    loopStep (framesWorld [badFrame]) (steadyLS "camA" 0 0 1) =
      StepRes.crashed (steadyLS "camA" 0 1 1) [] := by
  rfl

/-- C2 witness: the amended theorem applied to a concrete broken-read
state. -/
theorem C2_witness :
    loopStep brokenWorld (steadyLS "camB" 5 2 9) =
      StepRes.next (steadyLS "camB" 5 3 9) [] :=
  C2_amended_retry_same_handle brokenWorld "camB" 5 2 9 (by decide) rfl (Or.inl rfl)

/-- C3 amended: an encode failure is *not* contained to the iteration:
when a successfully read frame fails `cv2.imencode`, the ignored success
flag leads to `jpeg.tobytes()` raising, and the uncaught exception
terminates the whole loop (crash) even though `running` is still true —
and the crash skips the post-loop cleanup, so no release happens either.
Only the cooperative `running=false` check exits the loop gracefully. -/
theorem C3_amended_encode_crash (w : World) (u : String) (cid j n : Nat) (f : Frame)
    (hu : u ≠ "") (hopen : w.openOk cid = true)
    (hread : w.readAt cid j = ReadOutcome.ok f) (henc : f.encodable = false) :
    loopStep w (steadyLS u cid j n) = StepRes.crashed (steadyLS u cid (j + 1) n) [] := by
  rw [loopStep_steady w u cid j n hu hopen,
    readStep_ok w (steadyLS u cid j n) { capId := cid, url := u, reads := j } [] f hread]
  have hencEq : imencode (annotate (resizeForSpeed f)) = (false, none) := by
    unfold imencode
    rw [encodable_annotate_resize, henc]
    rfl
  rw [hencEq]
  rfl

/-- C3 witness: the amended theorem applied to a concrete malformed
frame. -/
theorem C3_witness :
    loopStep (framesWorld [badFrame]) (steadyLS "camC" 0 0 1) =
      StepRes.crashed (steadyLS "camC" 0 1 1) [] :=
  C3_amended_encode_crash (framesWorld [badFrame]) "camC" 0 0 1 badFrame
    (by decide) rfl rfl rfl

/-- C4 counterexample: the stop control operation (`stop_stream`) does
*not* set the running flag to false — after it runs on the live state,
`running` is still true.  Inspecting all control-plane operations (see
the amended theorem) shows none of them writes `running`, so the claimed
operation with postcondition `running=false` does not exist. -/
theorem C4_counterexample :
    (stop_stream { rtsp_url := some "camA", running := true }).1.running = true := rfl

/-- C4 amended: no control-plane operation changes the `running` flag
(`stop_stream` only clears the address); the flag is only ever set at
process start.  The loop half of the claim does hold: whenever `running`
is false at an iteration boundary, the loop exits within that iteration
and releases any open connection exactly once (and releases nothing if
no connection is open). -/
theorem C4_amended_stop_semantics :
    (∀ (op : ControlOp) (s : StreamState), (applyOp op s).running = s.running) ∧
    (∀ (w : World) (ls : LoopState), ls.shared.running = false →
      (∀ c, ls.cap = some c →
        loopStep w ls = StepRes.exited { ls with cap := none } [Event.releaseEv c.capId]) ∧
      (ls.cap = none → loopStep w ls = StepRes.exited ls [])) := by
  constructor
  · intro op s
    cases op with
    | setSource u =>
        cases u with
        | none => rfl
        | some v => cases hv : (v != "") <;> simp [applyOp, set_stream, hv]
    | stopSource => rfl
    | getStatus => rfl
  · intro w ls hrun
    constructor
    · intro c hc
      unfold loopStep
      rw [hrun, hc]
      rfl
    · intro hc
      unfold loopStep
      rw [hrun, hc]
      rfl

/-- C4 witness: `stop_stream` leaves `running` unchanged on the process
start state, and a concrete `running=false` state exits with exactly one
release of the open capture. -/
theorem C4_witness :
    (applyOp ControlOp.stopSource initState).running = initState.running ∧
    loopStep trivWorld
      { shared := { rtsp_url := some "camA", running := false },
        last_url := some "camA",
        cap := some { capId := 0, url := "camA", reads := 0 },
        nextCapId := 1 } =
      StepRes.exited
        { shared := { rtsp_url := some "camA", running := false },
          last_url := some "camA",
          cap := none,
          nextCapId := 1 }
        [Event.releaseEv 0] :=
  ⟨C4_amended_stop_semantics.1 ControlOp.stopSource initState,
   (C4_amended_stop_semantics.2 trivWorld
      { shared := { rtsp_url := some "camA", running := false },
        last_url := some "camA",
        cap := some { capId := 0, url := "camA", reads := 0 },
        nextCapId := 1 } rfl).1 { capId := 0, url := "camA", reads := 0 } rfl⟩

/-! ## Claim C7 -/

/-- C7: `set_stream` rejects an absent or empty `rtsp_url` with an HTTP
400 response and leaves the shared state unchanged; for every non-empty
address it sets the shared address to exactly that value and the
response echoes the accepted address. -/
theorem C7_set_source (u : Option String) (s : StreamState) :
    (truthy u = false →
      set_stream u s = (s, HttpResp.errSet 400 "rtsp_url required")) ∧
    (∀ v, u = some v → v ≠ "" →
      (set_stream u s).1 = { s with rtsp_url := some v } ∧
        (set_stream u s).2 = HttpResp.okSet v) := by
  constructor
  · intro h
    cases u with
    | none => rfl
    | some v =>
        simp only [truthy] at h
        have hv : v = "" := by simpa using h
        unfold set_stream
        simp [hv]
  · intro v huv hv
    subst huv
    unfold set_stream
    simp [hv]

/-- C7 witness: the three concrete cases — absent address, empty
address, and the accepted address `"camA"`. -/
theorem C7_witness :
    set_stream none initState = (initState, HttpResp.errSet 400 "rtsp_url required") ∧
    set_stream (some "") initState = (initState, HttpResp.errSet 400 "rtsp_url required") ∧
    ((set_stream (some "camA") initState).1 = { initState with rtsp_url := some "camA" } ∧
      (set_stream (some "camA") initState).2 = HttpResp.okSet "camA") :=
  ⟨(C7_set_source none initState).1 rfl,
   (C7_set_source (some "") initState).1 rfl,
   (C7_set_source (some "camA") initState).2 "camA" rfl (by decide)⟩

/-! ## Claim C9 -/

theorem mem_intersperse {α : Type} (sep : α) (x : α) :
    ∀ l : List α, x ∈ List.intersperse sep l → x = sep ∨ x ∈ l
  | [], h => by simp at h
  | [a], h => by
      rw [List.intersperse_singleton] at h
      right; exact h
  | a :: b :: tl, h => by
      rw [List.intersperse_cons_cons] at h
      rcases List.mem_cons.mp h with h | h
      · right; rw [h]; exact List.mem_cons_self a (b :: tl)
      rcases List.mem_cons.mp h with h | h
      · left; exact h
      · rcases mem_intersperse sep x (b :: tl) h with h | h
        · left; exact h
        · right; exact List.mem_cons_of_mem a h

theorem all_sqlJoin (p : Frag → Bool) (sep : Frag) (hsep : p sep = true)
    (parts : List (List Frag)) (hp : ∀ l ∈ parts, l.all p = true) :
    (sqlJoin sep parts).all p = true := by
  unfold sqlJoin
  rw [List.all_eq_true]
  intro x hx
  rw [List.mem_flatten] at hx
  obtain ⟨l, hl, hxl⟩ := hx
  rcases mem_intersperse [sep] l parts hl with h | h
  · subst h
    rcases List.mem_singleton.mp hxl with rfl
    exact hsep
  · exact List.all_eq_true.mp (hp l h) x hxl

theorem all_ident_join_comma (l : List String) :
    (sqlJoin (Frag.sqlLit ", ") (l.map fun c => [Frag.identFrag c])).all fragOk = true := by
  refine all_sqlJoin fragOk _ (by decide) _ ?_
  intro p hp
  rcases List.mem_map.mp hp with ⟨c, _, rfl⟩
  rfl

theorem all_kv_join_and (l : List (String × PValue)) :
    (sqlJoin (Frag.sqlLit " AND ")
      (l.map fun kv => [Frag.identFrag kv.1, Frag.sqlLit " = %s"])).all fragOk = true := by
  refine all_sqlJoin fragOk _ (by decide) _ ?_
  intro p hp
  rcases List.mem_map.mp hp with ⟨kv, _, rfl⟩
  simp [fragOk, codeSqlLits]

theorem all_ph_join_comma {α : Type} (l : List α) :
    (sqlJoin (Frag.sqlLit ", ") (l.map fun _ => [Frag.phFrag])).all fragOk = true := by
  refine all_sqlJoin fragOk _ (by decide) _ ?_
  intro p hp
  rcases List.mem_map.mp hp with ⟨c, _, rfl⟩
  rfl

/-- C9 counterexample: passing a raw `where_sql` string to
`select_from_table` splices that caller-supplied SQL text verbatim into
the composed query (`query + sql.SQL(" WHERE ") + sql.SQL(where_sql)`,
dbProvider.py line 121): the resulting query contains an SQL-text
fragment that is not one of the source's own literals, so it is not
true that no SQL text of the executed query is ever constructed from
caller-supplied values. -/
theorem C9_counterexample :
    Frag.sqlLit "1=1 OR email IS NOT NULL" ∈
      (select_from_table "users" none none
        (some "1=1 OR email IS NOT NULL") none none none).frags ∧
    "1=1 OR email IS NOT NULL" ∉ codeSqlLits ∧
    litsFromCode (select_from_table "users" none none
      (some "1=1 OR email IS NOT NULL") none none none) = false := by
  refine ⟨?_, ?_, ?_⟩ <;> decide

/-- C9 amended: table and column identifiers are always composed with
`sql.Identifier` and values are always bound as parameters, and as long
as the raw `where_sql` escape hatch is not used, every piece of SQL text
in the queries composed by `select_from_table`, `insert_into_table` and
`delete_from_table` is one of the source code's own string literals —
the claim holds for the safe interface, but not for `where_sql`, whose
caller-supplied text is spliced verbatim into the query. -/
theorem C9_amended_sql_safety (table : String) (columns : Option (List String))
    (whereMap : Option (List (String × PValue))) (whereParams : Option (List PValue))
    (orderBy : Option (List String)) (lim : Option Int)
    (data : List (String × PValue)) (returnCols : Option (List String)) :
    litsFromCode (select_from_table table columns whereMap none whereParams orderBy lim)
        = true ∧
    (∀ q, insert_into_table table data returnCols = Except.ok q →
      litsFromCode q = true) ∧
    (∀ q, delete_from_table table whereMap none whereParams lim = Except.ok q →
      litsFromCode q = true) := by
  have hlits : litsFromCode = fun q => q.frags.all fragOk := rfl
  refine ⟨?_, ?_, ?_⟩
  · rw [hlits]
    unfold select_from_table
    cases lim <;> cases ho : truthyList orderBy <;> cases hm : truthyMap whereMap <;>
      cases hcb : truthyList columns <;>
        simp [hm, ho, hcb, truthy, List.all_append,
          all_ident_join_comma, all_kv_join_and, fragOk, codeSqlLits]
  · intro q hq
    unfold insert_into_table at hq
    dsimp only at hq
    split at hq
    · exact Except.noConfusion hq
    · split at hq <;> injection hq with hq <;> rw [hlits, ← hq] <;>
        simp only [List.all_append, List.all_cons, List.all_nil, Bool.and_eq_true] <;>
        repeat' apply And.intro
      all_goals first
        | rfl
        | exact all_ident_join_comma _
        | exact all_ph_join_comma _
        | decide
  · intro q hq
    unfold delete_from_table at hq
    dsimp only at hq
    split at hq
    · exact Except.noConfusion hq
    · cases lim <;> cases hm : truthyMap whereMap <;>
        simp only [hm, truthy, Bool.false_eq_true, if_false, if_true,
          ite_false, ite_true] at hq <;>
        injection hq with hq <;> rw [hlits, ← hq] <;>
        simp only [List.all_append, List.all_cons, List.all_nil, Bool.and_eq_true] <;>
        repeat' apply And.intro
      all_goals first
        | rfl
        | exact all_kv_join_and _
        | decide

/-- C9 witness: concrete safe calls — a select with a where-dict, an
insert with RETURNING, and a conditioned delete — whose composed queries
contain only source-literal SQL text. -/
theorem C9_witness :
    litsFromCode (select_from_table "users" (some ["id", "email"])
      (some [("active", PValue.bool true)]) none none none (some 10)) = true ∧
    litsFromCode
      { frags := [Frag.sqlLit "INSERT INTO ", Frag.identFrag "users", Frag.sqlLit " (",
          Frag.identFrag "email", Frag.sqlLit ", ", Frag.identFrag "active",
          Frag.sqlLit ") VALUES (", Frag.phFrag, Frag.sqlLit ", ", Frag.phFrag,
          Frag.sqlLit ")", Frag.sqlLit " RETURNING ", Frag.identFrag "id"],
        params := [PValue.str "new@example.com", PValue.bool true] } = true ∧
    litsFromCode
      { frags := [Frag.sqlLit "DELETE FROM ", Frag.identFrag "users", Frag.sqlLit " WHERE ",
          Frag.identFrag "email", Frag.sqlLit " = %s"],
        params := [PValue.str "new@example.com"] } = true :=
  ⟨(C9_amended_sql_safety "users" (some ["id", "email"]) (some [("active", PValue.bool true)])
      none none (some 10) [] none).1,
   (C9_amended_sql_safety "users" none none none none none
      [("email", PValue.str "new@example.com"), ("active", PValue.bool true)]
      (some ["id"])).2.1 _ rfl,
   (C9_amended_sql_safety "users" none (some [("email", PValue.str "new@example.com")])
      none none none [] none).2.2 _ rfl⟩

/-! ## Claim C6 -/

theorem emitsOf_map_emit (l : List Frame) :
    emitsOf (l.map fun f => Event.emitEv (msgOf f)) = l.map msgOf := by
  induction l with
  | nil => rfl
  | cons f t ih =>
      show msgOf f :: emitsOf (t.map fun g => Event.emitEv (msgOf g)) =
        msgOf f :: t.map msgOf
      rw [ih]

theorem framesWorld_read (fs : List Frame) (cid j : Nat) (f : Frame) (rest : List Frame)
    (h : fs.drop j = f :: rest) : (framesWorld fs).readAt cid j = ReadOutcome.ok f := by
  show (match (fs.drop j).head? with
    | some g => ReadOutcome.ok g
    | none => ReadOutcome.miss) = ReadOutcome.ok f
  rw [h]
  rfl

theorem loopStep_steady_emit (w : World) (u : String) (cid j n : Nat) (f : Frame)
    (hu : u ≠ "") (hopen : w.openOk cid = true)
    (hread : w.readAt cid j = ReadOutcome.ok f) (henc : f.encodable = true) :
    loopStep w (steadyLS u cid j n) =
      StepRes.next (steadyLS u cid (j + 1) n) [Event.emitEv (msgOf f)] := by
  rw [loopStep_steady w u cid j n hu hopen,
    readStep_ok w (steadyLS u cid j n) { capId := cid, url := u, reads := j } [] f hread]
  have hencEq : imencode (annotate (resizeForSpeed f)) =
      (true, some (Img.bytes (annotate (resizeForSpeed f)).img)) := by
    unfold imencode
    rw [encodable_annotate_resize, henc]
    rfl
  rw [hencEq]
  rfl

theorem steady_run (u : String) (cid n : Nat) (hu : u ≠ "") (fs : List Frame) :
    ∀ (rest : List Frame) (j : Nat), fs.drop j = rest →
      (∀ f ∈ rest, f.encodable = true) →
      runSched (framesWorld fs) rest.length [] (steadyLS u cid j n) =
        (RunRes.outOfFuel (steadyLS u cid (j + rest.length) n),
         rest.map fun f => Event.emitEv (msgOf f)) := by
  intro rest
  induction rest with
  | nil => intro j hdrop henc; rfl
  | cons f rest ih =>
      intro j hdrop henc
      have hread := framesWorld_read fs cid j f rest hdrop
      have hstep := loopStep_steady_emit (framesWorld fs) u cid j n f hu rfl hread
        (henc f (List.mem_cons_self f rest))
      have hdrop2 : fs.drop (j + 1) = rest := by
        rw [← List.tail_drop, hdrop]
        rfl
      have harr : j + 1 + rest.length = j + (rest.length + 1) := by omega
      rw [show (f :: rest).length = rest.length + 1 from rfl, runSched_succ]
      show (match loopStep (framesWorld fs) (steadyLS u cid j n) with
        | StepRes.next ls1 evs =>
            ((runSched (framesWorld fs) rest.length [] ls1).1,
              evs ++ (runSched (framesWorld fs) rest.length [] ls1).2)
        | StepRes.exited ls1 evs => (RunRes.exitedR ls1, evs)
        | StepRes.crashed ls1 evs => (RunRes.crashedR ls1, evs)) = _
      rw [hstep]
      show ((runSched (framesWorld fs) rest.length [] (steadyLS u cid (j + 1) n)).1,
        [Event.emitEv (msgOf f)] ++
          (runSched (framesWorld fs) rest.length [] (steadyLS u cid (j + 1) n)).2) = _
      rw [ih (j + 1) hdrop2 (fun g hg => henc g (List.mem_cons_of_mem f hg)), harr]
      rfl

/-- C6: from a steady connected state, a source that yields the frames
`fs` in order (all of them well-formed for the encoder) produces exactly
one broadcast message per frame, in strict capture order; each message
carries the base64-encoded JPEG bytes of the annotated (resized) frame
and the integer detection count of that frame. -/
theorem C6_broadcast_per_frame (u : String) (cid n : Nat) (fs : List Frame)
    (hu : u ≠ "") (henc : ∀ f ∈ fs, f.encodable = true) :
    (runSched (framesWorld fs) fs.length [] (steadyLS u cid 0 n)).2 =
      (fs.map fun f => Event.emitEv (msgOf f)) ∧
    emitsOf (runSched (framesWorld fs) fs.length [] (steadyLS u cid 0 n)).2 =
      fs.map msgOf ∧
    (emitsOf (runSched (framesWorld fs) fs.length [] (steadyLS u cid 0 n)).2).map
        BroadcastMsg.faces =
      fs.map fun f => (resizeForSpeed f).detections.length := by
  have h := steady_run u cid n hu fs fs 0 rfl henc
  have htr : (runSched (framesWorld fs) fs.length [] (steadyLS u cid 0 n)).2 =
      fs.map fun f => Event.emitEv (msgOf f) := by
    rw [h]
  refine ⟨htr, ?_, ?_⟩ <;> rw [htr]
  · exact emitsOf_map_emit fs
  · rw [emitsOf_map_emit, List.map_map]
    rfl

/-- C6 witness: the end-to-end scenario — address `"camA"`, three frames
whose detector results have sizes 0, 1, 0 — yields exactly three
broadcast messages whose `faces` values are 0, 1, 0 in that order. -/
theorem C6_witness :
    (runSched (framesWorld [frame0, frame1, frame2]) [frame0, frame1, frame2].length []
        (steadyLS "camA" 0 0 1)).2 =
      [Event.emitEv (msgOf frame0), Event.emitEv (msgOf frame1),
        Event.emitEv (msgOf frame2)] ∧
    (emitsOf (runSched (framesWorld [frame0, frame1, frame2]) [frame0, frame1, frame2].length []
        (steadyLS "camA" 0 0 1)).2).map BroadcastMsg.faces = [0, 1, 0] := by
  have h := C6_broadcast_per_frame "camA" 0 1 [frame0, frame1, frame2]
    (by decide) (by decide)
  refine ⟨h.1, ?_⟩
  rw [h.2.2]
  rfl

/-! ## Claim C5 -/

/-- C5 counterexample: the loop's per-iteration access list contains an
access to the `running` flag performed without holding the lock — the
`while state['running']` test at line 44 is outside any `with
state_lock` block — so not every read of the shared state is under the
mutual-exclusion guard. -/
theorem C5_counterexample :
    ({ field := SField.runningFlag, kind := AccKind.readAcc, locked := false } : Access) ∈
        loopIterAccesses true ∧
    ({ field := SField.runningFlag, kind := AccKind.readAcc, locked := false } : Access).locked
      = false :=
  ⟨List.mem_cons_self _ _, rfl⟩

theorem applyOp_url (op : ControlOp) (s : StreamState) :
    (applyOp op s).rtsp_url = s.rtsp_url ∨ writesOf op = some (applyOp op s).rtsp_url := by
  cases op with
  | setSource u =>
      cases u with
      | none => left; rfl
      | some v =>
          cases hv : (v != "") with
          | false => left; simp [applyOp, set_stream, hv]
          | true => right; simp [applyOp, set_stream, writesOf, hv]
  | stopSource => right; rfl
  | getStatus => left; rfl

/-- C5 amended: every control-plane access and the loop's read of the
source address are performed under `state_lock`, and the per-iteration
snapshot can only hold a value that was explicitly written (or the
initial value) — but the loop's read of the `running` flag at the
iteration boundary is the one access performed without the lock, so the
claim's "every read ... of both the source address and the running flag"
fails exactly there. -/
theorem C5_amended_lock_discipline :
    (∀ (op : ControlOp), ∀ a ∈ opAccesses op, a.locked = true) ∧
    (∀ (r : Bool), ∀ a ∈ loopIterAccesses r, a.field = SField.rtspUrl → a.locked = true) ∧
    (∀ (r : Bool), ∀ a ∈ loopIterAccesses r, a.locked = false →
      a = { field := SField.runningFlag, kind := AccKind.readAcc, locked := false }) ∧
    (∀ (ops : List ControlOp) (s : StreamState),
      (ops.foldl (fun t op => applyOp op t) s).rtsp_url = s.rtsp_url ∨
        (ops.foldl (fun t op => applyOp op t) s).rtsp_url ∈ ops.filterMap writesOf) := by
  refine ⟨?_, ?_, ?_, ?_⟩
  · intro op a ha
    cases op with
    | setSource u =>
        cases ht : truthy u <;> simp [opAccesses, ht] at ha
        subst ha
        rfl
    | stopSource =>
        simp [opAccesses] at ha
        subst ha
        rfl
    | getStatus =>
        simp [opAccesses] at ha
        subst ha
        rfl
  · intro r a ha hf
    cases r <;> simp [loopIterAccesses] at ha
    · subst ha
      exact absurd hf (by decide)
    · rcases ha with ha | ha <;> subst ha
      · exact absurd hf (by decide)
      · rfl
  · intro r a ha hl
    cases r <;> simp [loopIterAccesses] at ha
    · subst ha
      rfl
    · rcases ha with ha | ha <;> subst ha
      · rfl
      · exact absurd hl (by decide)
  · intro ops
    induction ops with
    | nil => intro s; left; rfl
    | cons op rest ih =>
        intro s
        rw [List.foldl_cons]
        rcases ih (applyOp op s) with h | h
        · rcases applyOp_url op s with h2 | h2
          · left
            rw [h, h2]
          · right
            rw [List.filterMap_cons_some h2, h]
            exact List.mem_cons_self _ _
        · right
          cases hw : writesOf op with
          | none =>
              rw [List.filterMap_cons_none hw]
              exact h
          | some v =>
              rw [List.filterMap_cons_some hw]
              exact List.mem_cons_of_mem _ h

/-- C5 witness: the amended theorem at concrete inputs — the
`stop_stream` write access is locked, the loop's address read is locked,
the only unlocked access is the `running` check, and a concrete
set-then-stop sequence leaves a snapshot value that was explicitly
written. -/
theorem C5_witness :
    ({ field := SField.rtspUrl, kind := AccKind.writeAcc, locked := true } : Access).locked
        = true ∧
    ({ field := SField.rtspUrl, kind := AccKind.readAcc, locked := true } : Access).locked
        = true ∧
    ({ field := SField.runningFlag, kind := AccKind.readAcc, locked := false } : Access) =
      { field := SField.runningFlag, kind := AccKind.readAcc, locked := false } ∧
    (([ControlOp.setSource (some "camA"), ControlOp.stopSource].foldl
        (fun t op => applyOp op t) initState).rtsp_url = initState.rtsp_url ∨
      ([ControlOp.setSource (some "camA"), ControlOp.stopSource].foldl
        (fun t op => applyOp op t) initState).rtsp_url ∈
        [ControlOp.setSource (some "camA"), ControlOp.stopSource].filterMap writesOf) :=
  ⟨C5_amended_lock_discipline.1 ControlOp.stopSource
      { field := SField.rtspUrl, kind := AccKind.writeAcc, locked := true }
      (by simp [opAccesses]),
   C5_amended_lock_discipline.2.1 true
      { field := SField.rtspUrl, kind := AccKind.readAcc, locked := true }
      (by simp [loopIterAccesses]) rfl,
   C5_amended_lock_discipline.2.2.1 true
      { field := SField.runningFlag, kind := AccKind.readAcc, locked := false }
      (by simp [loopIterAccesses]) rfl,
   C5_amended_lock_discipline.2.2.2
      [ControlOp.setSource (some "camA"), ControlOp.stopSource] initState⟩

/-! ## Claim C10 -/

/-- C10: `delete_from_table` raises `ValueError` — composing and
executing no query at all — whenever both the `where` mapping and the
raw `where_sql` condition are falsy (absent or empty); and every query
it does compose carries a `WHERE` clause, so an unconditional full-table
delete is impossible through this interface. -/
theorem C10_delete_requires_where (table : String)
    (whereMap : Option (List (String × PValue))) (whereSql : Option String)
    (whereParams : Option (List PValue)) (lim : Option Int) :
    (truthyMap whereMap = false → truthy whereSql = false →
      delete_from_table table whereMap whereSql whereParams lim =
        Except.error "DELETE requires a where clause (where dict or where_sql).") ∧
    (∀ q, delete_from_table table whereMap whereSql whereParams lim = Except.ok q →
      Frag.sqlLit " WHERE " ∈ q.frags ∨
        Frag.sqlLit " WHERE ctid IN (SELECT ctid FROM " ∈ q.frags) := by
  constructor
  · intro hw hs
    unfold delete_from_table
    simp [hw, hs]
  · intro q hq
    unfold delete_from_table at hq
    cases hm : truthyMap whereMap <;> cases hs2 : truthy whereSql <;>
      simp [hm, hs2] at hq <;> cases lim <;> simp at hq <;>
        rw [← hq] <;> simp [sqlJoin]

/-- C10 witness: the no-condition call errors, and a concrete
conditioned delete composes a query containing a `WHERE`. -/
theorem C10_witness :
    delete_from_table "users" none none none none =
      Except.error "DELETE requires a where clause (where dict or where_sql)." ∧
    (Frag.sqlLit " WHERE " ∈
        [Frag.sqlLit "DELETE FROM ", Frag.identFrag "users", Frag.sqlLit " WHERE ",
          Frag.identFrag "email", Frag.sqlLit " = %s"] ∨
      Frag.sqlLit " WHERE ctid IN (SELECT ctid FROM " ∈
        [Frag.sqlLit "DELETE FROM ", Frag.identFrag "users", Frag.sqlLit " WHERE ",
          Frag.identFrag "email", Frag.sqlLit " = %s"]) :=
  ⟨(C10_delete_requires_where "users" none none none none).1 rfl rfl,
   (C10_delete_requires_where "users" (some [("email", PValue.str "x")]) none none none).2
     { frags := [Frag.sqlLit "DELETE FROM ", Frag.identFrag "users", Frag.sqlLit " WHERE ",
         Frag.identFrag "email", Frag.sqlLit " = %s"],
       params := [PValue.str "x"] } rfl⟩

end SentinelCCTV
